import Mathlib

/-!
Verification of the rendezvous3d-panel scene/telemetry core.

The development shallowly embeds the TypeScript sources:
  - DataFieldProcessor, BoundsCalculator (field resolution, auto-scale bounds),
  - ViewAngleScaling (view-angle auto-scaling, over the reals),
  - CameraAxisEditor (camera axis preset commands),
  - the Scene Reconciler (modelled from the design document, since its file,
    ThreeScene.tsx, is not among the sources).

JavaScript doubles are modelled by JSNum: an exact rational for the finite
case plus the two infinities and NaN, with the library functions the code
relies on (parseFloat, Math.min, Math.max, String splitting and trimming)
modelled explicitly.
-/

namespace Rdv

attribute [local semireducible] Rat.mul Rat.add Rat.sub Rat.inv Rat.ofScientific

/-- Model of a JavaScript number (IEEE-754 double) as used by this panel:
a finite value is modelled exactly as a rational, plus the two infinities
and NaN. -/
inductive JSNum where
  | fin (q : ℚ)
  | inf
  | ninf
  | nan
deriving DecidableEq

namespace JSNum

/-- JavaScript isFinite. -/
def isFinite : JSNum → Bool
  | fin _ => true
  | _ => false

/-- JavaScript isNaN. -/
def isNaN : JSNum → Bool
  | nan => true
  | _ => false

/-- JavaScript truthiness for a number: 0 and NaN are falsy. -/
def truthy : JSNum → Bool
  | fin q => q ≠ 0
  | nan => false
  | _ => true

/-- Model of the JavaScript expression a || b on numbers. -/
def jsOr (a b : JSNum) : JSNum := if a.truthy then a else b

/-- Model of Math.min: NaN propagates, otherwise the usual order with the
infinities at the ends. -/
def jsMin : JSNum → JSNum → JSNum
  | nan, _ => nan
  | _, nan => nan
  | ninf, _ => ninf
  | _, ninf => ninf
  | inf, b => b
  | a, inf => a
  | fin a, fin b => fin (min a b)

/-- Model of Math.max. -/
def jsMax : JSNum → JSNum → JSNum
  | nan, _ => nan
  | _, nan => nan
  | inf, _ => inf
  | _, inf => inf
  | ninf, b => b
  | a, ninf => a
  | fin a, fin b => fin (max a b)

/-- JavaScript addition. -/
def add : JSNum → JSNum → JSNum
  | nan, _ => nan
  | _, nan => nan
  | inf, ninf => nan
  | ninf, inf => nan
  | inf, _ => inf
  | _, inf => inf
  | ninf, _ => ninf
  | _, ninf => ninf
  | fin a, fin b => fin (a + b)

/-- JavaScript subtraction. -/
def sub : JSNum → JSNum → JSNum
  | nan, _ => nan
  | _, nan => nan
  | inf, inf => nan
  | inf, _ => inf
  | ninf, ninf => nan
  | ninf, _ => ninf
  | fin _, inf => ninf
  | fin _, ninf => inf
  | fin a, fin b => fin (a - b)

/-- JavaScript multiplication (0 times an infinity is NaN). -/
def mul : JSNum → JSNum → JSNum
  | nan, _ => nan
  | _, nan => nan
  | fin a, fin b => fin (a * b)
  | fin a, inf => if 0 < a then inf else if a < 0 then ninf else nan
  | fin a, ninf => if 0 < a then ninf else if a < 0 then inf else nan
  | inf, fin b => if 0 < b then inf else if b < 0 then ninf else nan
  | ninf, fin b => if 0 < b then ninf else if b < 0 then inf else nan
  | inf, inf => inf
  | inf, ninf => ninf
  | ninf, inf => ninf
  | ninf, ninf => inf

/-- Strict order on results that the code compares after it has established
finiteness: holds only between two finite values. -/
def jsLt : JSNum → JSNum → Prop
  | fin a, fin b => a < b
  | _, _ => False

end JSNum

/-- Characters the modelled string primitives treat as whitespace. -/
def isWs (c : Char) : Bool := c = ' ' ∨ c = '\t' ∨ c = '\n' ∨ c = '\r'

/-- Decimal digit test. -/
def isDigit (c : Char) : Bool := '0' ≤ c ∧ c ≤ '9'

/-- Value of one decimal digit. -/
def digitVal (c : Char) : ℕ := c.toNat - '0'.toNat

/-- Value of a digit string read left to right. -/
def digitsToNat (ds : List Char) : ℕ := ds.foldl (fun acc c => acc * 10 + digitVal c) 0

/-- Powers of ten as rationals, in a form the kernel evaluates directly. -/
def pow10 : ℕ → ℚ
  | 0 => 1
  | n + 1 => 10 * pow10 n

/-- Value of a fractional digit string (the digits after the decimal point). -/
def fracToRat (ds : List Char) : ℚ := (digitsToNat ds : ℚ) / pow10 ds.length

/-- Applies a decimal exponent to a rational mantissa. -/
def applyExp (q : ℚ) : ℤ → ℚ
  | Int.ofNat n => q * pow10 n
  | Int.negSucc n => q / pow10 (n + 1)

/-- Reads an optional sign; returns true when the sign is a minus. -/
def readSign : List Char → Bool × List Char
  | '-' :: cs => (true, cs)
  | '+' :: cs => (false, cs)
  | cs => (false, cs)

/-- Leading-match test between two character lists. -/
def startsWithChars : List Char → List Char → Bool
  | [], _ => true
  | _, [] => false
  | a :: as, b :: bs => a = b && startsWithChars as bs

/-- Reads an optional exponent part (e or E, optional sign, digits); a
malformed exponent is not part of the number and contributes 0. -/
def readExp : List Char → ℤ
  | 'e' :: rest =>
    (fun (p : Bool × List Char) =>
      let ds := p.2.takeWhile isDigit
      if ds = [] then 0
      else if p.1 then -(digitsToNat ds : ℤ) else (digitsToNat ds : ℤ)) (readSign rest)
  | 'E' :: rest =>
    (fun (p : Bool × List Char) =>
      let ds := p.2.takeWhile isDigit
      if ds = [] then 0
      else if p.1 then -(digitsToNat ds : ℤ) else (digitsToNat ds : ℤ)) (readSign rest)
  | _ => 0

/-- Model of the JavaScript parseFloat builtin: skip leading whitespace,
read an optional sign, then either Infinity or a decimal literal (longest
valid prefix); NaN when no digits are found. -/
def parseFloat (s : String) : JSNum :=
  let cs := s.toList.dropWhile isWs
  let sgn := readSign cs
  let neg := sgn.1
  let cs1 := sgn.2
  if startsWithChars ("Infinity".toList) cs1 then
    (if neg then JSNum.ninf else JSNum.inf)
  else
    let ipart := cs1.takeWhile isDigit
    let rest1 := cs1.dropWhile isDigit
    let fpr : List Char × List Char :=
      match rest1 with
      | '.' :: r => (r.takeWhile isDigit, r.dropWhile isDigit)
      | _ => ([], rest1)
    if ipart = [] ∧ fpr.1 = [] then JSNum.nan
    else
      let mant : ℚ := (digitsToNat ipart : ℚ) + fracToRat fpr.1
      let e := readExp fpr.2
      JSNum.fin (applyExp (if neg then -mant else mant) e)

/-- Splits a character list at every comma, the model of String.split with
separator comma. -/
def splitCommaCh : List Char → List (List Char)
  | [] => [[]]
  | c :: rest =>
    if c = ',' then [] :: splitCommaCh rest
    else
      match splitCommaCh rest with
      | t :: ts => (c :: t) :: ts
      | [] => [[c]]

/-- Model of the JavaScript split on comma. -/
def jsSplitComma (s : String) : List String := (splitCommaCh s.toList).map List.asString

/-- Whether the string contains a comma (the includes check of the code). -/
def containsComma (s : String) : Bool := s.toList.contains ','

/-- Model of the JavaScript String.prototype.trim. -/
def jsTrim (s : String) : String :=
  (((s.toList.dropWhile isWs).reverse.dropWhile isWs).reverse).asString

/-- The opening curly brace character. -/
def lbrace : Char := Char.ofNat 123

/-- The closing curly brace character. -/
def rbrace : Char := Char.ofNat 125

/-- Source of a data field (types.ts DataSourceType): a literal constant or
a reference into telemetry. -/
inductive DataSourceType where
  | const
  | field
deriving DecidableEq

/-- types.ts DataField: a field name or constant value. -/
structure DataField where
  sourceType : DataSourceType
  value : String
deriving DecidableEq

/-- A value stored in a telemetry column: the runtime values the processor
distinguishes (numbers, strings, anything else such as null). -/
inductive JSVal where
  | num (n : JSNum)
  | str (s : String)
  | nullv
deriving DecidableEq

/-- Coarse model of the JavaScript String(v) conversion on numbers; no
claim inspects its output beyond identity on strings. -/
def jsNumToString : JSNum → String
  | JSNum.fin q => if q.den = 1 then toString q.num else toString q
  | JSNum.inf => "Infinity"
  | JSNum.ninf => "-Infinity"
  | JSNum.nan => "NaN"

/-- The JavaScript String(v) conversion on telemetry values. -/
def jsValToString : JSVal → String
  | JSVal.num n => jsNumToString n
  | JSVal.str s => s
  | JSVal.nullv => "null"

/-- One named column of a Grafana data frame (name plus values vector). -/
structure DataFrameField where
  name : String
  values : List JSVal
deriving DecidableEq

/-- One Grafana series: optional name and refId, plus its fields. -/
structure DataSeries where
  name : Option String
  refId : Option String
  fields : List DataFrameField
deriving DecidableEq

/-- The telemetry snapshot handed to the processor (PanelData.series). -/
structure PanelData where
  series : List DataSeries
deriving DecidableEq

/-- DataFieldProcessor: regex match of the bracket reference syntax
(open bracket, series name, close bracket, then the field name between
curly braces, anchored at both ends). -/
def bracketMatch (s : String) : Option (String × String) :=
  match s.toList with
  | '[' :: rest =>
    let g1 := rest.takeWhile (fun c => c ≠ ']')
    (match rest.dropWhile (fun c => c ≠ ']') with
     | ']' :: c :: rest2 =>
       if c = lbrace then
         (match rest2.reverse with
          | d :: g2rev =>
            if d = rbrace ∧ g1 ≠ [] ∧ g2rev ≠ [] ∧ ¬ g2rev.contains rbrace then
              some (g1.asString, g2rev.reverse.asString)
            else none
          | [] => none)
       else none
     | _ => none)
  | _ => none

/-- DataFieldProcessor: regex match of the dotted reference syntax (series
name before the first dot, field name after it, both nonempty). -/
def dotMatch (s : String) : Option (String × String) :=
  let pre := s.toList.takeWhile (fun c => c ≠ '.')
  match s.toList.dropWhile (fun c => c ≠ '.') with
  | '.' :: rest =>
    if pre ≠ [] ∧ rest ≠ [] then some (pre.asString, rest.asString) else none
  | _ => none

/-- DataFieldProcessor (getTextFieldFromDataSource): the indexOf based dot
split, which unlike the regex also accepts an empty field name. -/
def dotSplitText (s : String) : Option (String × String) :=
  let pre := s.toList.takeWhile (fun c => c ≠ '.')
  match s.toList.dropWhile (fun c => c ≠ '.') with
  | '.' :: rest => if pre ≠ [] then some (pre.asString, rest.asString) else none
  | _ => none

/-- Reference parsing of the numeric and annotation-string resolvers:
bracket syntax first, then the dotted regex, else a bare field name. -/
def parseNumericRef (v : String) : Option String × String :=
  match bracketMatch v with
  | some (t, f) => (some t, f)
  | none =>
    match dotMatch v with
    | some (t, f) => (some t, f)
    | none => (none, v)

/-- Reference parsing of getTextFieldFromDataSource: bracket syntax first,
then the indexOf based dot split, else a bare field name. -/
def parseTextRef (v : String) : Option String × String :=
  match bracketMatch v with
  | some (t, f) => (some t, f)
  | none =>
    match dotSplitText v with
    | some (t, f) => (some t, f)
    | none => (none, v)

/-- DataFieldProcessor.processFieldValues: numbers pass through, strings
are parsed with NaN replaced by 0, anything else becomes 0. -/
def processFieldValues (fd : DataFrameField) : List JSNum :=
  fd.values.map (fun v =>
    match v with
    | JSVal.num n => n
    | JSVal.str s =>
      let parsed := parseFloat s
      if parsed.isNaN then JSNum.fin 0 else parsed
    | JSVal.nullv => JSNum.fin 0)

/-- DataFieldProcessor.processFieldValuesAsString. -/
def processFieldValuesAsString (fd : DataFrameField) : List String :=
  fd.values.map jsValToString

/-- DataFieldProcessor.findFieldBySeriesAndName: scan the series whose name
or refId matches, returning the first matching field with a nonzero value
count; none when no such field exists. -/
def findFieldBySeriesAndName : List DataSeries → String → String → Option (List JSNum)
  | [], _, _ => none
  | s :: rest, t, f =>
    if s.name = some t ∨ s.refId = some t then
      match s.fields.find? (fun fd => fd.name = f) with
      | some fd =>
        if 0 < fd.values.length then some (processFieldValues fd)
        else findFieldBySeriesAndName rest t f
      | none => findFieldBySeriesAndName rest t f
    else findFieldBySeriesAndName rest t f

/-- DataFieldProcessor.findFieldByName: scan all series for the field name,
returning the first field with a nonzero value count, else the default. -/
def findFieldByName : List DataSeries → String → JSNum → List JSNum
  | [], _, d => [d]
  | s :: rest, f, d =>
    match s.fields.find? (fun fd => fd.name = f) with
    | some fd =>
      if 0 < fd.values.length then processFieldValues fd
      else findFieldByName rest f d
    | none => findFieldByName rest f d

/-- DataFieldProcessor.getFieldFromDataSource. -/
def getFieldFromDataSource (data : PanelData) (field : DataField) (defaultValue : JSNum) : List JSNum :=
  match parseNumericRef field.value with
  | (some t, f) =>
    (match findFieldBySeriesAndName data.series t f with
     | some r => r
     | none => findFieldByName data.series f defaultValue)
  | (none, f) => findFieldByName data.series f defaultValue

/-- DataFieldProcessor.getDataFieldValue: numeric resolution of a data
field; the processor state (this.data) is the first argument. -/
def getDataFieldValue (data? : Option PanelData) (field? : Option DataField) (defaultValue : JSNum) : List JSNum :=
  match field? with
  | none => [defaultValue]
  | some field =>
    match field.sourceType with
    | DataSourceType.const =>
      let valueStr := if field.value = "" then "0" else field.value
      if containsComma valueStr then
        (jsSplitComma valueStr).map (fun v =>
          let parsed := parseFloat (jsTrim v)
          if parsed.isFinite then parsed else JSNum.fin 0)
      else
        let parsed := parseFloat valueStr
        [if parsed.isFinite then parsed else defaultValue]
    | DataSourceType.field =>
      match data? with
      | some data => getFieldFromDataSource data field defaultValue
      | none => [defaultValue]

/-- DataFieldProcessor.getLastDataFieldValue: last resolved value, with a
non-finite last value replaced by the default. -/
def getLastDataFieldValue (data? : Option PanelData) (field? : Option DataField) (defaultValue : JSNum) : JSNum :=
  let values := getDataFieldValue data? field? defaultValue
  match values.getLast? with
  | some v => if v.isFinite then v else defaultValue
  | none => defaultValue

/-- DataFieldProcessor.findFieldBySeriesAndNameAsString. -/
def findFieldBySeriesAndNameAsString : List DataSeries → String → String → Option (List String)
  | [], _, _ => none
  | s :: rest, t, f =>
    if s.name = some t ∨ s.refId = some t then
      match s.fields.find? (fun fd => fd.name = f) with
      | some fd =>
        if 0 < fd.values.length then some (processFieldValuesAsString fd)
        else findFieldBySeriesAndNameAsString rest t f
      | none => findFieldBySeriesAndNameAsString rest t f
    else findFieldBySeriesAndNameAsString rest t f

/-- DataFieldProcessor.findFieldByNameAsString. -/
def findFieldByNameAsString : List DataSeries → String → String → List String
  | [], _, d => [d]
  | s :: rest, f, d =>
    match s.fields.find? (fun fd => fd.name = f) with
    | some fd =>
      if 0 < fd.values.length then processFieldValuesAsString fd
      else findFieldByNameAsString rest f d
    | none => findFieldByNameAsString rest f d

/-- DataFieldProcessor.getFieldFromDataSourceAsString. -/
def getFieldFromDataSourceAsString (data : PanelData) (field : DataField) (defaultValue : String) : List String :=
  match parseNumericRef field.value with
  | (some t, f) =>
    (match findFieldBySeriesAndNameAsString data.series t f with
     | some r => r
     | none => findFieldByNameAsString data.series f defaultValue)
  | (none, f) => findFieldByNameAsString data.series f defaultValue

/-- DataFieldProcessor.getFieldValueAsString: the annotation string
resolver. -/
def getFieldValueAsString (data? : Option PanelData) (field? : Option DataField) (defaultValue : String) : List String :=
  match field? with
  | none => [defaultValue]
  | some field =>
    match field.sourceType with
    | DataSourceType.const =>
      let value := field.value
      if containsComma value then (jsSplitComma value).map jsTrim
      else [value]
    | DataSourceType.field =>
      match data? with
      | some data => getFieldFromDataSourceAsString data field defaultValue
      | none => [defaultValue]

/-- DataFieldProcessor.getTextFieldFromDataSource inner loop: skip series
whose name differs from a given target series name; in a considered series
return the values of the first field with the wanted name converted to
strings (no value-count check); the default when the loop ends. -/
def getTextFieldLoop : List DataSeries → Option String → String → String → List String
  | [], _, _, d => [d]
  | s :: rest, t?, f, d =>
    if (match t? with | some t => decide (s.name ≠ some t) | none => false) then
      getTextFieldLoop rest t? f d
    else
      match s.fields.find? (fun fd => fd.name = f) with
      | some fd => fd.values.map jsValToString
      | none => getTextFieldLoop rest t? f d

/-- DataFieldProcessor.getTextFieldFromDataSource. -/
def getTextFieldFromDataSource (data : PanelData) (field : DataField) (defaultValue : String) : List String :=
  match parseTextRef field.value with
  | (t?, f) => getTextFieldLoop data.series t? f defaultValue

/-- DataFieldProcessor.getTextDataFieldValue: text resolution of a data
field. -/
def getTextDataFieldValue (data? : Option PanelData) (field? : Option DataField) (defaultValue : String) : List String :=
  match field? with
  | none => [defaultValue]
  | some field =>
    match field.sourceType with
    | DataSourceType.const =>
      let valueStr := field.value
      if containsComma valueStr then (jsSplitComma valueStr).map jsTrim
      else [valueStr]
    | DataSourceType.field =>
      match data? with
      | some data => getTextFieldFromDataSource data field defaultValue
      | none => [defaultValue]

/-- DataFieldProcessor.getLastTextDataFieldValue. -/
def getLastTextDataFieldValue (data? : Option PanelData) (field? : Option DataField) (defaultValue : String) : String :=
  let values := getFieldValueAsString data? field? defaultValue
  match values.getLast? with
  | some v => if v = "" then defaultValue else v
  | none => defaultValue

/-- Amended claim-side constant resolution (claim C3 as amended): split on
comma and parse each trimmed token, a token that does not parse to a
finite float becoming 0; without a comma a single token is parsed, an
unparsable or non-finite one becoming the caller default; an empty value
is read as the string 0. -/
def constNumericAmended (s : String) (d : JSNum) : List JSNum :=
  let s0 := if s = "" then "0" else s
  if containsComma s0 then
    (jsSplitComma s0).map (fun tok =>
      let p := parseFloat (jsTrim tok)
      if p.isFinite then p else JSNum.fin 0)
  else
    let p := parseFloat s0
    [if p.isFinite then p else d]

/-- Amended claim-side telemetry value conversion (claim C3 as amended):
number values pass through unchanged, non-finite ones included; string
values parse with NaN becoming 0; any other value becomes 0. -/
def telemetryValueAmended (v : JSVal) : JSNum :=
  match v with
  | JSVal.num n => n
  | JSVal.str t => if (parseFloat t).isNaN then JSNum.fin 0 else parseFloat t
  | JSVal.nullv => JSNum.fin 0

/-- types.ts model unit setting (meters or kilometers). -/
inductive ModelUnit where
  | meters
  | kilometers
deriving DecidableEq

/-- types.ts SphereShape (the on and off settings are modelled as Bool,
true standing for on). -/
structure SphereData where
  id : String
  name : String
  visible : Bool
  color : String
  posX : DataField
  posY : DataField
  posZ : DataField
  autoRadius : Bool
  radius : Option JSNum
  autoScaleFactor : Option JSNum
deriving DecidableEq

/-- types.ts AnnotationShape (lineInverted true models the inverted line
direction). -/
structure AnnotData where
  id : String
  name : String
  visible : Bool
  textSize : JSNum
  textColor : String
  posX : DataField
  posY : DataField
  posZ : DataField
  text : DataField
  lineInverted : Bool
deriving DecidableEq

/-- types.ts PolylineShape. -/
structure PolylineData where
  id : String
  name : String
  visible : Bool
  strokeSize : JSNum
  strokeColor : String
  pointsX : DataField
  pointsY : DataField
  pointsZ : DataField
  closePath : Bool
  smoothCurve : Bool
deriving DecidableEq

/-- types.ts ModelShape. -/
structure ModelData where
  id : String
  name : String
  visible : Bool
  url : String
  posX : DataField
  posY : DataField
  posZ : DataField
  quatX : DataField
  quatY : DataField
  quatZ : DataField
  quatW : DataField
  autoScale : Bool
  scale : Option JSNum
  autoScaleFactor : Option JSNum
  unit : Option ModelUnit
deriving DecidableEq

/-- types.ts Shape: closed union of the four shape variants; annot stands
for the variant whose type string names the callout-label shape. -/
inductive Shape where
  | sphere (s : SphereData)
  | annot (a : AnnotData)
  | polyline (p : PolylineData)
  | model3d (m : ModelData)
deriving DecidableEq

/-- The shared id attribute of a shape. -/
def Shape.id : Shape → String
  | Shape.sphere s => s.id
  | Shape.annot a => a.id
  | Shape.polyline p => p.id
  | Shape.model3d m => m.id

/-- The shared visible attribute of a shape. -/
def Shape.visible : Shape → Bool
  | Shape.sphere s => s.visible
  | Shape.annot a => a.visible
  | Shape.polyline p => p.visible
  | Shape.model3d m => m.visible

/-- Whether the type tag of the shape is sphere, the callout variant or
3dmodel (the three point-positioned types the code tests for). -/
def Shape.isPointType : Shape → Bool
  | Shape.sphere _ => true
  | Shape.annot _ => true
  | Shape.model3d _ => true
  | Shape.polyline _ => false

/-- Optional access to a posX attribute (absent on a polyline, which has
pointsX instead); models reading shape.posX on an untyped value. -/
def Shape.posX? : Shape → Option DataField
  | Shape.sphere s => some s.posX
  | Shape.annot a => some a.posX
  | Shape.model3d m => some m.posX
  | Shape.polyline _ => none

/-- Optional access to a posY attribute. -/
def Shape.posY? : Shape → Option DataField
  | Shape.sphere s => some s.posY
  | Shape.annot a => some a.posY
  | Shape.model3d m => some m.posY
  | Shape.polyline _ => none

/-- Optional access to a posZ attribute. -/
def Shape.posZ? : Shape → Option DataField
  | Shape.sphere s => some s.posZ
  | Shape.annot a => some a.posZ
  | Shape.model3d m => some m.posZ
  | Shape.polyline _ => none

/-- The six limits returned by BoundsCalculator.calculateAutoScaleLimits;
also the running min and max accumulator during the scan. -/
structure AutoScaleLimits where
  minX : JSNum
  maxX : JSNum
  minY : JSNum
  maxY : JSNum
  minZ : JSNum
  maxZ : JSNum
deriving DecidableEq

/-- Updates the running limits with one resolved point position. -/
def boundsPoint (st : AutoScaleLimits) (px py pz : JSNum) : AutoScaleLimits :=
  { minX := JSNum.jsMin st.minX px, maxX := JSNum.jsMax st.maxX px
    minY := JSNum.jsMin st.minY py, maxY := JSNum.jsMax st.maxY py
    minZ := JSNum.jsMin st.minZ pz, maxZ := JSNum.jsMax st.maxZ pz }

/-- The forEach over one polyline coordinate array: min and max are
updated together from each value. -/
def boundsFold (mn mx : JSNum) (vs : List JSNum) : JSNum × JSNum :=
  vs.foldl (fun p v => (JSNum.jsMin p.1 v, JSNum.jsMax p.2 v)) (mn, mx)

/-- One iteration of the BoundsCalculator object scan: invisible shapes
are skipped; point-positioned shapes contribute their last resolved
position, polylines contribute all their resolved points. -/
def boundsStep (data? : Option PanelData) (st : AutoScaleLimits) (shape : Shape) : AutoScaleLimits :=
  if !shape.visible then st
  else
    match shape with
    | Shape.sphere s =>
      boundsPoint st (getLastDataFieldValue data? (some s.posX) (JSNum.fin 0))
        (getLastDataFieldValue data? (some s.posY) (JSNum.fin 0))
        (getLastDataFieldValue data? (some s.posZ) (JSNum.fin 0))
    | Shape.annot a =>
      boundsPoint st (getLastDataFieldValue data? (some a.posX) (JSNum.fin 0))
        (getLastDataFieldValue data? (some a.posY) (JSNum.fin 0))
        (getLastDataFieldValue data? (some a.posZ) (JSNum.fin 0))
    | Shape.model3d m =>
      boundsPoint st (getLastDataFieldValue data? (some m.posX) (JSNum.fin 0))
        (getLastDataFieldValue data? (some m.posY) (JSNum.fin 0))
        (getLastDataFieldValue data? (some m.posZ) (JSNum.fin 0))
    | Shape.polyline p =>
      let xs := getDataFieldValue data? (some p.pointsX) (JSNum.fin 0)
      let ys := getDataFieldValue data? (some p.pointsY) (JSNum.fin 0)
      let zs := getDataFieldValue data? (some p.pointsZ) (JSNum.fin 0)
      let bx := boundsFold st.minX st.maxX xs
      let by' := boundsFold st.minY st.maxY ys
      let bz := boundsFold st.minZ st.maxZ zs
      ⟨bx.1, bx.2, by'.1, by'.2, bz.1, bz.2⟩

/-- The accumulated limits before padding, starting from the code's
Infinity and minus Infinity initial values. -/
def rawBounds (data? : Option PanelData) (objects : List Shape) : AutoScaleLimits :=
  objects.foldl (boundsStep data?)
    ⟨JSNum.inf, JSNum.ninf, JSNum.inf, JSNum.ninf, JSNum.inf, JSNum.ninf⟩

/-- The padding step on one axis: widen finite bounds by a tenth of the
range (10 replacing a zero range), else fall back to minus 50 and 50. -/
def padAxis (mn mx : JSNum) : JSNum × JSNum :=
  if mn.isFinite ∧ mx.isFinite then
    let range := JSNum.jsOr (mx.sub mn) (JSNum.fin 10)
    let padding := range.mul (JSNum.fin (1/10))
    (mn.sub padding, mx.add padding)
  else (JSNum.fin (-50), JSNum.fin 50)

/-- BoundsCalculator.calculateAutoScaleLimits. -/
def calculateAutoScaleLimits (data? : Option PanelData) (objects : List Shape) : AutoScaleLimits :=
  let st := rawBounds data? objects
  let px := padAxis st.minX st.maxX
  let py := padAxis st.minY st.maxY
  let pz := padAxis st.minZ st.maxZ
  ⟨px.1, px.2, py.1, py.2, pz.1, pz.2⟩

/-- The per-shape X axis contributions of the bounds scan, used to state
properties of calculateAutoScaleLimits. -/
def shapeContribsX (data? : Option PanelData) (s : Shape) : List JSNum :=
  if !s.visible then []
  else
    match s with
    | Shape.sphere sp => [getLastDataFieldValue data? (some sp.posX) (JSNum.fin 0)]
    | Shape.annot a => [getLastDataFieldValue data? (some a.posX) (JSNum.fin 0)]
    | Shape.model3d m => [getLastDataFieldValue data? (some m.posX) (JSNum.fin 0)]
    | Shape.polyline p => getDataFieldValue data? (some p.pointsX) (JSNum.fin 0)

/-- The per-shape Y axis contributions of the bounds scan. -/
def shapeContribsY (data? : Option PanelData) (s : Shape) : List JSNum :=
  if !s.visible then []
  else
    match s with
    | Shape.sphere sp => [getLastDataFieldValue data? (some sp.posY) (JSNum.fin 0)]
    | Shape.annot a => [getLastDataFieldValue data? (some a.posY) (JSNum.fin 0)]
    | Shape.model3d m => [getLastDataFieldValue data? (some m.posY) (JSNum.fin 0)]
    | Shape.polyline p => getDataFieldValue data? (some p.pointsY) (JSNum.fin 0)

/-- The per-shape Z axis contributions of the bounds scan. -/
def shapeContribsZ (data? : Option PanelData) (s : Shape) : List JSNum :=
  if !s.visible then []
  else
    match s with
    | Shape.sphere sp => [getLastDataFieldValue data? (some sp.posZ) (JSNum.fin 0)]
    | Shape.annot a => [getLastDataFieldValue data? (some a.posZ) (JSNum.fin 0)]
    | Shape.model3d m => [getLastDataFieldValue data? (some m.posZ) (JSNum.fin 0)]
    | Shape.polyline p => getDataFieldValue data? (some p.pointsZ) (JSNum.fin 0)

/-- All X axis contributions of the scan, in scan order. -/
def contribsX (data? : Option PanelData) (objects : List Shape) : List JSNum :=
  (objects.map (shapeContribsX data?)).flatten

/-- All Y axis contributions of the scan, in scan order. -/
def contribsY (data? : Option PanelData) (objects : List Shape) : List JSNum :=
  (objects.map (shapeContribsY data?)).flatten

/-- All Z axis contributions of the scan, in scan order. -/
def contribsZ (data? : Option PanelData) (objects : List Shape) : List JSNum :=
  (objects.map (shapeContribsZ data?)).flatten

/-- The padding the bounds calculator adds on one axis with finite bounds
a and b: a tenth of the range, 10 replacing a zero range. -/
def padOf (a b : ℚ) : ℚ := (if b - a = 0 then 10 else b - a) * (1 / 10)

/-- What claim C9 asserts of one axis of the returned limits, stated
against the contributions of the scan on that axis: the bounds are finite
and strictly ordered; an axis with no finite contribution defaults to
minus 50 and 50; an axis with only finite contributions is the widened
min and max of those contributions. -/
def axisOk (contribs : List JSNum) (lo hi : JSNum) : Prop :=
  JSNum.jsLt lo hi ∧
    ((∀ v ∈ contribs, v.isFinite = false) → lo = JSNum.fin (-50) ∧ hi = JSNum.fin 50) ∧
      (contribs ≠ [] → (∀ v ∈ contribs, v.isFinite = true) →
        ∃ a b : ℚ, contribs.foldl JSNum.jsMin JSNum.inf = JSNum.fin a ∧
          contribs.foldl JSNum.jsMax JSNum.ninf = JSNum.fin b ∧ a ≤ b ∧
            lo = JSNum.fin (a - padOf a b) ∧ hi = JSNum.fin (b + padOf a b))

/-- types.ts CameraSettings (the parts the modelled components read). -/
structure CameraSettings where
  posX : DataField
  posY : DataField
  posZ : DataField
  distance : Option DataField
  enableControls : Bool
  showPositionAndDistance : Bool
deriving DecidableEq

/-- types.ts ViewAngleScalingSettings. -/
structure ViewAngleScalingSettings where
  targetAngularSize : JSNum
  minSize : JSNum
  maxSize : JSNum
deriving DecidableEq

/-- types.ts SimpleOptions (every attribute is optional there). -/
structure SimpleOptions where
  showAxis : Option Bool
  backgroundColor : Option String
  directionalLightIntensity : Option JSNum
  ambientLightIntensity : Option JSNum
  environmentMapIntensity : Option JSNum
  camera : Option CameraSettings
  targetObjectId : Option String
  viewAngleScaling : Option ViewAngleScalingSettings
  objects : Option (List Shape)
deriving DecidableEq

/-- The three coordinate axes of the camera preset buttons. -/
inductive Axis where
  | X
  | Y
  | Z
deriving DecidableEq

/-- The direction sign of a camera preset button. -/
inductive AxisDir where
  | plus
  | minus
deriving DecidableEq

/-- The camera move command a preset click broadcasts (the posX, posY and
posZ attributes of the posted message). -/
structure CameraMoveMsg where
  posX : JSNum
  posY : JSNum
  posZ : JSNum
deriving DecidableEq

/-- The value attribute of an optional data field, the empty string when
absent (reads of posX.value are only reached under a guard that implies
presence). -/
def optFieldValue : Option DataField → String
  | some p => p.value
  | none => ""

/-- CameraAxisEditor.handleAxisClick: target object position resolution.
The JavaScript reads targetObjectId with an or-default of the string
origin (so an absent or empty id means the origin), and takes the target
position from the found object only when its type is one of the three
point types and its posX source is const; each coordinate is parseFloat
with an or-default of 0. -/
def axisClickTarget (options : SimpleOptions) : JSNum × JSNum × JSNum :=
  let targetObjectId :=
    match options.targetObjectId with
    | some s => if s = "" then "origin" else s
    | none => "origin"
  if targetObjectId = "origin" then (JSNum.fin 0, JSNum.fin 0, JSNum.fin 0)
  else
    let objects := options.objects.getD []
    match objects.find? (fun o => o.id = targetObjectId) with
    | some o =>
      if o.isPointType ∧ (o.posX?.map (fun p => p.sourceType) = some DataSourceType.const) then
        (JSNum.jsOr (parseFloat (optFieldValue o.posX?)) (JSNum.fin 0),
         JSNum.jsOr (parseFloat (optFieldValue o.posY?)) (JSNum.fin 0),
         JSNum.jsOr (parseFloat (optFieldValue o.posZ?)) (JSNum.fin 0))
      else (JSNum.fin 0, JSNum.fin 0, JSNum.fin 0)
    | none => (JSNum.fin 0, JSNum.fin 0, JSNum.fin 0)

/-- CameraAxisEditor.handleAxisClick: the broadcast camera move command
for a preset button, the target position plus the fixed distance 100
along the chosen axis. -/
def handleAxisClick (options : SimpleOptions) (direction : AxisDir) (axis : Axis) : CameraMoveMsg :=
  let t := axisClickTarget options
  let fixedDistance : JSNum := JSNum.fin 100
  match direction, axis with
  | AxisDir.plus, Axis.X => ⟨t.1.add fixedDistance, t.2.1, t.2.2⟩
  | AxisDir.minus, Axis.X => ⟨t.1.sub fixedDistance, t.2.1, t.2.2⟩
  | AxisDir.plus, Axis.Y => ⟨t.1, (t.2.1).add fixedDistance, t.2.2⟩
  | AxisDir.minus, Axis.Y => ⟨t.1, (t.2.1).sub fixedDistance, t.2.2⟩
  | AxisDir.plus, Axis.Z => ⟨t.1, t.2.1, (t.2.2).add fixedDistance⟩
  | AxisDir.minus, Axis.Z => ⟨t.1, t.2.1, (t.2.2).sub fixedDistance⟩

/-- Claim-side reading of the preset target position: the position fields
are read exactly when the target object exists and its posX is const
sourced, the origin otherwise (also when the target id is origin). -/
def claimAxisTarget (options : SimpleOptions) : JSNum × JSNum × JSNum :=
  let targetObjectId :=
    match options.targetObjectId with
    | some s => if s = "" then "origin" else s
    | none => "origin"
  if targetObjectId = "origin" then (JSNum.fin 0, JSNum.fin 0, JSNum.fin 0)
  else
    match (options.objects.getD []).find? (fun o => o.id = targetObjectId) with
    | some o =>
      (match o.posX? with
       | some p =>
         if p.sourceType = DataSourceType.const then
           (JSNum.jsOr (parseFloat p.value) (JSNum.fin 0),
            JSNum.jsOr (parseFloat (optFieldValue o.posY?)) (JSNum.fin 0),
            JSNum.jsOr (parseFloat (optFieldValue o.posZ?)) (JSNum.fin 0))
         else (JSNum.fin 0, JSNum.fin 0, JSNum.fin 0)
       | none => (JSNum.fin 0, JSNum.fin 0, JSNum.fin 0))
    | none => (JSNum.fin 0, JSNum.fin 0, JSNum.fin 0)

/-- Claim-side form of the broadcast command: the target displaced by
exactly 100 units along the chosen axis and equal on the other two. -/
def claimAxisMsg (options : SimpleOptions) (direction : AxisDir) (axis : Axis) : CameraMoveMsg :=
  let t := claimAxisTarget options
  let d : JSNum := match direction with
    | AxisDir.plus => JSNum.fin 100
    | AxisDir.minus => JSNum.fin (-100)
  match axis with
  | Axis.X => ⟨t.1.add d, t.2.1, t.2.2⟩
  | Axis.Y => ⟨t.1, (t.2.1).add d, t.2.2⟩
  | Axis.Z => ⟨t.1, t.2.1, (t.2.2).add d⟩

/-- A live scene entity owned by the reconciler: its creation stamp (used
to recognize a recreation) and the shape data last applied to it. -/
structure SceneEntity where
  gen : ℕ
  shape : Shape
deriving DecidableEq

/-- The reconciler state: the id keyed entity map (an association list in
insertion order) and the next creation stamp. -/
structure SceneState where
  entities : List (String × SceneEntity)
  nextGen : ℕ
deriving DecidableEq

/-- One reconciliation outcome: the new state plus the ids created and
destroyed during the pass. -/
structure ReconcileResult where
  state : SceneState
  created : List String
  destroyed : List String
deriving DecidableEq

/-- Membership of an id in an id list. -/
def idMem (i : String) : List String → Bool
  | [] => false
  | x :: rest => if i = x then true else idMem i rest

/-- Lookup of a live entity by id. -/
def lookupEnt (m : List (String × SceneEntity)) (i : String) : Option SceneEntity :=
  (m.find? (fun e => e.1 = i)).map (fun e => e.2)

/-- In-place update of the entity stored under an id (the id keeps its
position in the map and its creation stamp). -/
def updateEnt : List (String × SceneEntity) → String → SceneEntity → List (String × SceneEntity)
  | [], _, _ => []
  | e :: rest, i, ent => if e.1 = i then (i, ent) :: rest else e :: updateEnt rest i ent

/-- Modelled from the spec: the Scene Reconciler of section 4.4. Its
implementation lives in ThreeScene.tsx, which is not among the source
files (SimplePanel.tsx imports it); the algorithm follows the design
document: compute the visible shape ids, destroy every live entity whose
id is absent, then walk the visible shapes updating live entities in
place and creating entities for new ids. -/
def reconcile (shapes : List Shape) (st : SceneState) : ReconcileResult :=
  let visibleShapes := shapes.filter (fun s => s.visible)
  let visibleIds := visibleShapes.map (fun s => s.id)
  let destroyed := (st.entities.filter (fun e => !idMem e.1 visibleIds)).map (fun e => e.1)
  let kept := st.entities.filter (fun e => idMem e.1 visibleIds)
  let step := fun (acc : List (String × SceneEntity) × List String × ℕ) (s : Shape) =>
    match lookupEnt acc.1 s.id with
    | some ent => (updateEnt acc.1 s.id { ent with shape := s }, acc.2.1, acc.2.2)
    | none => (acc.1 ++ [(s.id, ⟨acc.2.2, s⟩)], acc.2.1 ++ [s.id], acc.2.2 + 1)
  let out := visibleShapes.foldl step (kept, [], st.nextGen)
  ⟨⟨out.1, out.2.2⟩, out.2.1, destroyed⟩

/-- A concrete sphere shape instantiating the reconciliation claim. -/
def sphereA : Shape :=
  Shape.sphere ⟨"a", "A", true, "red", ⟨DataSourceType.const, "0"⟩,
    ⟨DataSourceType.const, "0"⟩, ⟨DataSourceType.const, "0"⟩, true, none, none⟩

/-- A second concrete sphere shape instantiating the reconciliation claim. -/
def sphereB : Shape :=
  Shape.sphere ⟨"b", "B", true, "green", ⟨DataSourceType.const, "1"⟩,
    ⟨DataSourceType.const, "1"⟩, ⟨DataSourceType.const, "1"⟩, true, none, none⟩

/-- A third concrete sphere shape instantiating the reconciliation claim. -/
def sphereC : Shape :=
  Shape.sphere ⟨"c", "C", true, "blue", ⟨DataSourceType.const, "2"⟩,
    ⟨DataSourceType.const, "2"⟩, ⟨DataSourceType.const, "2"⟩, true, none, none⟩

/-- A three dimensional vector, for the real-valued scaling algorithm. -/
def Vec3 : Type := ℝ × ℝ × ℝ

/-- THREE.Vector3.distanceTo: the euclidean distance of two points. -/
noncomputable def distanceTo (a b : Vec3) : ℝ :=
  Real.sqrt ((a.1 - b.1) ^ 2 + (a.2.1 - b.2.1) ^ 2 + (a.2.2 - b.2.2) ^ 2)

/-- The userData record the scaling code reads and writes on a scene
object: the cached original size and the aspect ratio. -/
structure UserData where
  originalSize : Option ℝ
  aspectRatio : Option ℝ

/-- A scene object as the scaling code sees it: its position, the size of
the bounding box an external library computes for it, and its userData. -/
structure Object3D where
  position : Vec3
  bboxSize : Vec3
  userData : UserData

/-- A camera as the scaling code sees it (only its position is read). -/
structure Camera where
  position : Vec3

/-- ViewAngleScaling.ts ViewAngleScalingConfig. -/
structure VAConfig where
  enabled : Bool
  targetAngularSize : ℝ
  minSize : ℝ
  maxSize : ℝ

/-- The largest dimension of the bounding box of an object (the
Math.max over the three size components, left to right). -/
noncomputable def bboxMaxDimension (object : Object3D) : ℝ :=
  max (max object.bboxSize.1 object.bboxSize.2.1) object.bboxSize.2.2

/-- Writes the bounding box derived size into the userData cache. -/
noncomputable def cacheSize (object : Object3D) : Object3D :=
  { object with userData := { object.userData with originalSize := some (bboxMaxDimension object) } }

/-- ViewAngleScaling.getObjectSize: a truthy cached userData.originalSize
is returned as is; otherwise the size is derived from the bounding box
and cached (the pair returns the size together with the possibly updated
object, making the userData write explicit). -/
noncomputable def getObjectSize (object : Object3D) : ℝ × Object3D :=
  match object.userData.originalSize with
  | some s => if s ≠ 0 then (s, object) else (bboxMaxDimension object, cacheSize object)
  | none => (bboxMaxDimension object, cacheSize object)

/-- ViewAngleScaling.calculateViewBasedScale. -/
noncomputable def calculateViewBasedScale (object : Object3D) (camera : Camera) (config : VAConfig) : ℝ :=
  if config.enabled = false then 1
  else
    let distance := distanceTo camera.position object.position
    if distance = 0 then 1
    else
      let requiredSize := 2 * distance * Real.tan (config.targetAngularSize / 2)
      let originalSize := (getObjectSize object).1
      let scale := requiredSize / originalSize
      max config.minSize (min config.maxSize scale)

/-- ViewAngleScaling.applyShapeAdjustment: multiply a base scale by the
clamped aspect ratio, a falsy (absent or zero) userData.aspectRatio
standing for 1. -/
noncomputable def applyShapeAdjustment (object : Object3D) (baseScale : ℝ) : ℝ :=
  let aspectRatio : ℝ :=
    match object.userData.aspectRatio with
    | some a => if a ≠ 0 then a else 1
    | none => 1
  baseScale * max 0.5 (min 2.0 aspectRatio)

/-- Modelled from the spec: the composite per-entity scale of section 4.2
(its caller lives in ThreeScene.tsx, which is not among the source
files). The steps in the specified order: return 1 when disabled or at
distance zero, otherwise clamp the view-based scale and apply the aspect
ratio adjustment, both delegated to the source functions above. -/
noncomputable def viewAngleScale (object : Object3D) (camera : Camera) (config : VAConfig) : ℝ :=
  if config.enabled = false ∨ distanceTo camera.position object.position = 0 then 1
  else applyShapeAdjustment object (calculateViewBasedScale object camera config)

/-- Claim-side original size as claim C1 words it: the cached entity size
if present, otherwise the bounding box maximum dimension. -/
noncomputable def claimOriginalSize (object : Object3D) : ℝ :=
  match object.userData.originalSize with
  | some s => s
  | none => bboxMaxDimension object

/-- Claim-side scale formula as claim C1 states it, with the aspect ratio
read by nullish coalescing (a present zero is used as is). -/
noncomputable def claimScaleC1 (object : Object3D) (camera : Camera) (config : VAConfig) : ℝ :=
  if config.enabled = false ∨ distanceTo camera.position object.position = 0 then 1
  else
    let distance := distanceTo camera.position object.position
    let aspect : ℝ :=
      match object.userData.aspectRatio with
      | some a => a
      | none => 1
    max config.minSize (min config.maxSize
        (2 * distance * Real.tan (config.targetAngularSize / 2) / claimOriginalSize object)) *
      max 0.5 (min 2.0 aspect)

/-- Amended original size: the cached entity size if present and nonzero,
otherwise the bounding box maximum dimension (the guard of the cited
specification sentence, zero or unset). -/
noncomputable def amendedOriginalSize (object : Object3D) : ℝ :=
  match object.userData.originalSize with
  | some s => if s ≠ 0 then s else bboxMaxDimension object
  | none => bboxMaxDimension object

/-- Amended claim C1 scale formula: like the claimed formula but the
aspect ratio and the cached size treat a present zero as absent. -/
noncomputable def amendedScaleC1 (object : Object3D) (camera : Camera) (config : VAConfig) : ℝ :=
  if config.enabled = false ∨ distanceTo camera.position object.position = 0 then 1
  else
    let distance := distanceTo camera.position object.position
    let aspect : ℝ :=
      match object.userData.aspectRatio with
      | some a => if a ≠ 0 then a else 1
      | none => 1
    max config.minSize (min config.maxSize
        (2 * distance * Real.tan (config.targetAngularSize / 2) / amendedOriginalSize object)) *
      max 0.5 (min 2.0 aspect)

/-- A concrete scene object with a cached nonzero size, instantiating the
scaling claims. -/
def objW : Object3D := ⟨(0, 0, 0), (1, 1, 1), ⟨some 2, none⟩⟩

/-- A concrete scene object with a cached size and an aspect ratio of
zero, instantiating the scaling counterexample. -/
def objA1 : Object3D := ⟨(0, 0, 0), (1, 1, 1), ⟨some 2, some 0⟩⟩

/-- A concrete scene object with a cached size of zero, instantiating the
scaling counterexample. -/
def objA2 : Object3D := ⟨(0, 0, 0), (2, 2, 2), ⟨some 0, none⟩⟩

/-- A camera one unit from the origin. -/
def camW1 : Camera := ⟨(1, 0, 0)⟩

/-- A camera two units from the origin. -/
def camW2 : Camera := ⟨(2, 0, 0)⟩

/-- An enabled scaling configuration with target angular size 1. -/
noncomputable def cfgW : VAConfig := ⟨true, 1, 1 / 10, 10⟩

/-- An enabled scaling configuration whose target angular size is half pi,
making the required size exactly twice the distance. -/
noncomputable def cfgC1 : VAConfig := ⟨true, Real.pi / 2, 1 / 10, 10⟩

end Rdv

namespace Rdv

attribute [local semireducible] Rat.mul Rat.add Rat.sub Rat.inv Rat.ofScientific

theorem splitCommaCh_ne_nil : ∀ cs : List Char, splitCommaCh cs ≠ []
  | [] => by simp [splitCommaCh]
  | c :: rest => by
    by_cases hc : c = ','
    · simp [splitCommaCh, hc]
    · simp only [splitCommaCh, if_neg hc]
      cases h : splitCommaCh rest with
      | nil => simp
      | cons t ts => simp

theorem jsSplitComma_ne_nil (s : String) : jsSplitComma s ≠ [] := by
  intro h
  exact splitCommaCh_ne_nil s.toList (by simpa [jsSplitComma] using h)

theorem processFieldValues_length (fd : DataFrameField) :
    (processFieldValues fd).length = fd.values.length := by
  simp [processFieldValues]

theorem processFieldValuesAsString_length (fd : DataFrameField) :
    (processFieldValuesAsString fd).length = fd.values.length := by
  simp [processFieldValuesAsString]

theorem findFieldBySeriesAndName_ne_nil (series : List DataSeries) (t f : String) :
    ∀ r, findFieldBySeriesAndName series t f = some r → r ≠ [] := by
  induction series with
  | nil => intro r h; simp [findFieldBySeriesAndName] at h
  | cons s rest ih =>
    intro r h
    simp only [findFieldBySeriesAndName] at h
    split at h
    · split at h
      · split at h
        · rename_i fd hfd hlen
          intro hnil
          have h2 := Option.some.inj h
          rw [← h2] at hnil
          have h3 := processFieldValues_length fd
          rw [hnil] at h3
          simp at h3
          omega
        · exact ih r h
      · exact ih r h
    · exact ih r h

theorem findFieldByName_ne_nil (series : List DataSeries) (f : String) (d : JSNum) :
    findFieldByName series f d ≠ [] := by
  induction series with
  | nil => simp [findFieldByName]
  | cons s rest ih =>
    simp only [findFieldByName]
    split
    · split
      · rename_i fd hfd hlen
        intro hnil
        have h3 := processFieldValues_length fd
        rw [hnil] at h3
        simp at h3
        omega
      · exact ih
    · exact ih

theorem getDataFieldValue_ne_nil (data? : Option PanelData) (field? : Option DataField)
    (d : JSNum) : getDataFieldValue data? field? d ≠ [] := by
  cases field? with
  | none => simp [getDataFieldValue]
  | some field =>
    cases hs : field.sourceType with
    | const =>
      simp only [getDataFieldValue, hs]
      split
      all_goals
        split
        · intro h
          exact jsSplitComma_ne_nil _ (by simpa using h)
        · simp
    | field =>
      simp only [getDataFieldValue, hs]
      cases data? with
      | none => simp
      | some data =>
        simp only [getFieldFromDataSource]
        cases hp : parseNumericRef field.value with
        | mk t? f =>
          cases t? with
          | some t =>
            simp only
            cases hq : findFieldBySeriesAndName data.series t f with
            | some r =>
              simp only
              exact findFieldBySeriesAndName_ne_nil data.series t f r hq
            | none =>
              simp only
              exact findFieldByName_ne_nil data.series f d
          | none =>
            simp only
            exact findFieldByName_ne_nil data.series f d

theorem findFieldBySeriesAndNameAsString_ne_nil (series : List DataSeries) (t f : String) :
    ∀ r, findFieldBySeriesAndNameAsString series t f = some r → r ≠ [] := by
  induction series with
  | nil => intro r h; simp [findFieldBySeriesAndNameAsString] at h
  | cons s rest ih =>
    intro r h
    simp only [findFieldBySeriesAndNameAsString] at h
    split at h
    · split at h
      · split at h
        · rename_i fd hfd hlen
          intro hnil
          have h2 := Option.some.inj h
          rw [← h2] at hnil
          have h3 := processFieldValuesAsString_length fd
          rw [hnil] at h3
          simp at h3
          omega
        · exact ih r h
      · exact ih r h
    · exact ih r h

theorem findFieldByNameAsString_ne_nil (series : List DataSeries) (f d : String) :
    findFieldByNameAsString series f d ≠ [] := by
  induction series with
  | nil => simp [findFieldByNameAsString]
  | cons s rest ih =>
    simp only [findFieldByNameAsString]
    split
    · split
      · rename_i fd hfd hlen
        intro hnil
        have h3 := processFieldValuesAsString_length fd
        rw [hnil] at h3
        simp at h3
        omega
      · exact ih
    · exact ih

theorem getFieldValueAsString_ne_nil (data? : Option PanelData) (field? : Option DataField)
    (d : String) : getFieldValueAsString data? field? d ≠ [] := by
  cases field? with
  | none => simp [getFieldValueAsString]
  | some field =>
    cases hs : field.sourceType with
    | const =>
      simp only [getFieldValueAsString, hs]
      split
      · intro h
        exact jsSplitComma_ne_nil _ (by simpa using h)
      · simp
    | field =>
      simp only [getFieldValueAsString, hs]
      cases data? with
      | none => simp
      | some data =>
        simp only [getFieldFromDataSourceAsString]
        cases hp : parseNumericRef field.value with
        | mk t? f =>
          cases t? with
          | some t =>
            simp only
            cases hq : findFieldBySeriesAndNameAsString data.series t f with
            | some r =>
              simp only
              exact findFieldBySeriesAndNameAsString_ne_nil data.series t f r hq
            | none =>
              simp only
              exact findFieldByNameAsString_ne_nil data.series f d
          | none =>
            simp only
            exact findFieldByNameAsString_ne_nil data.series f d

theorem findFieldBySeriesAndName_eq_none (series : List DataSeries) (t f : String)
    (h : ∀ s ∈ series, (s.name = some t ∨ s.refId = some t) →
      ∀ fd ∈ s.fields, fd.name = f → fd.values.length = 0) :
    findFieldBySeriesAndName series t f = none := by
  induction series with
  | nil => rfl
  | cons s rest ih =>
    have ih' := ih (fun s2 hs2 => h s2 (List.mem_cons_of_mem _ hs2))
    simp only [findFieldBySeriesAndName]
    split
    · rename_i hm
      split
      · rename_i fd hfd
        split
        · rename_i hlen
          have hmem := List.mem_of_find?_eq_some hfd
          have hname : fd.name = f := by simpa using List.find?_some hfd
          have h0 := h s (List.mem_cons_self _ _) hm fd hmem hname
          omega
        · exact ih'
      · exact ih'
    · exact ih'

theorem findFieldByName_eq_default (series : List DataSeries) (f : String) (d : JSNum)
    (h : ∀ s ∈ series, ∀ fd ∈ s.fields, fd.name = f → fd.values.length = 0) :
    findFieldByName series f d = [d] := by
  induction series with
  | nil => rfl
  | cons s rest ih =>
    have ih' := ih (fun s2 hs2 => h s2 (List.mem_cons_of_mem _ hs2))
    simp only [findFieldByName]
    split
    · rename_i fd hfd
      split
      · rename_i hlen
        have hmem := List.mem_of_find?_eq_some hfd
        have hname : fd.name = f := by simpa using List.find?_some hfd
        have h0 := h s (List.mem_cons_self _ _) fd hmem hname
        omega
      · exact ih'
    · exact ih'

theorem getTextFieldLoop_no_field (series : List DataSeries) (t? : Option String) (f d : String)
    (h : ∀ s ∈ series, ∀ fd ∈ s.fields, fd.name ≠ f) :
    getTextFieldLoop series t? f d = [d] := by
  induction series with
  | nil => rfl
  | cons s rest ih =>
    have ih' := ih (fun s2 hs2 => h s2 (List.mem_cons_of_mem _ hs2))
    simp only [getTextFieldLoop]
    split
    · exact ih'
    · have hnone : s.fields.find? (fun fd => fd.name = f) = none :=
        List.find?_eq_none.mpr (fun fd hfd => by simpa using h s (List.mem_cons_self _ _) fd hfd)
      simp only [hnone]
      exact ih'

theorem getTextFieldLoop_default_of_name (series : List DataSeries) (t f d : String)
    (h : ∀ s ∈ series, s.name = some t → ∀ fd ∈ s.fields, fd.name ≠ f) :
    getTextFieldLoop series (some t) f d = [d] := by
  induction series with
  | nil => rfl
  | cons s rest ih =>
    have ih' := ih (fun s2 hs2 => h s2 (List.mem_cons_of_mem _ hs2))
    simp only [getTextFieldLoop]
    split
    · exact ih'
    · rename_i hcond
      have hn : s.name = some t := by simpa using hcond
      have hnone : s.fields.find? (fun fd => fd.name = f) = none :=
        List.find?_eq_none.mpr
          (fun fd hfd => by simpa using h s (List.mem_cons_self _ _) hn fd hfd)
      simp only [hnone]
      exact ih'

/-- C8: resolving a const DataField whose value is the string 1,2,3 yields
the numbers 1, 2 and 3 under numeric resolution and the strings 1, 2 and 3
under text resolution (the text resolver and the annotation string
resolver alike), for every telemetry snapshot and caller default. -/
theorem claim_C8_const_comma_list (data? : Option PanelData) (d : JSNum) (dS dS2 : String) :
    getDataFieldValue data? (some ⟨DataSourceType.const, "1,2,3"⟩) d =
        [JSNum.fin 1, JSNum.fin 2, JSNum.fin 3] ∧
      getTextDataFieldValue data? (some ⟨DataSourceType.const, "1,2,3"⟩) dS =
          ["1", "2", "3"] ∧
        getFieldValueAsString data? (some ⟨DataSourceType.const, "1,2,3"⟩) dS2 =
          ["1", "2", "3"] :=
  ⟨rfl, rfl, rfl⟩

/-- C7: the scalar selector getLastDataFieldValue equals the last element
of the numeric resolution array when that element is finite, and the
caller default when it is not (the array is never empty, so the last
element exists). -/
theorem claim_C7_last_value (data? : Option PanelData) (field? : Option DataField) (d : JSNum) :
    ∃ v, (getDataFieldValue data? field? d).getLast? = some v ∧
      getLastDataFieldValue data? field? d = (if v.isFinite then v else d) := by
  have hne := getDataFieldValue_ne_nil data? field? d
  obtain ⟨v, hv⟩ : ∃ v, (getDataFieldValue data? field? d).getLast? = some v := by
    cases hL : (getDataFieldValue data? field? d).getLast? with
    | none => exact absurd (by simpa using hL) hne
    | some v => exact ⟨v, rfl⟩
  refine ⟨v, hv, ?_⟩
  simp only [getLastDataFieldValue]
  rw [hv]

/-- C3 counterexample: with default 5, the const list a,b resolves to
zeros rather than to the default twice, and a telemetry-bound Infinity
value survives numeric resolution instead of being replaced by the
default. -/
theorem claim_C3_counterexample :
    getDataFieldValue none (some ⟨DataSourceType.const, "a,b"⟩) (JSNum.fin 5) =
        [JSNum.fin 0, JSNum.fin 0] ∧
      [JSNum.fin 0, JSNum.fin 0] ≠ [JSNum.fin 5, JSNum.fin 5] ∧
        getDataFieldValue (some ⟨[⟨some "S", none, [⟨"F", [JSVal.num JSNum.inf]⟩]⟩]⟩)
            (some ⟨DataSourceType.field, "F"⟩) (JSNum.fin 5) = [JSNum.inf] :=
  ⟨by decide, by decide, by decide⟩

/-- C3 as amended: const resolution equals the amended description (comma
list tokens that do not parse to a finite float become 0, a single
unparsable token becomes the default), and telemetry values are converted
by the amended per-value rule (numbers pass through unchanged, strings
parse with NaN becoming 0, other values become 0). -/
theorem claim_C3_amended (data? : Option PanelData) (s : String) (d : JSNum)
    (fd : DataFrameField) :
    getDataFieldValue data? (some ⟨DataSourceType.const, s⟩) d = constNumericAmended s d ∧
      processFieldValues fd = fd.values.map telemetryValueAmended :=
  ⟨rfl, rfl⟩

/-- C2 counterexample: the reference Nav.PosX names the series Nav, the
snapshot has no series named Nav (by name or refId), yet numeric
resolution returns the PosX values of the series Other through the bare
name fallback instead of the default 42. -/
theorem claim_C2_counterexample :
    getDataFieldValue (some ⟨[⟨some "Other", some "A", [⟨"PosX", [JSVal.num (JSNum.fin 1)]⟩]⟩]⟩)
        (some ⟨DataSourceType.field, "Nav.PosX"⟩) (JSNum.fin 42) = [JSNum.fin 1] ∧
      [JSNum.fin 1] ≠ [JSNum.fin 42] :=
  ⟨by decide, by decide⟩

/-- C2 as amended: when the parsed reference names a series and no series
whose name or refId matches holds the field with a nonzero value count,
numeric resolution falls back to the bare field name scan over all
series; text resolution considers only series whose name (not refId)
matches and yields the default with no bare name fallback. -/
theorem claim_C2_amended (data : PanelData) (v t f : String) (d : JSNum) (dS : String) :
    (parseNumericRef v = (some t, f) →
      (∀ s ∈ data.series, (s.name = some t ∨ s.refId = some t) →
        ∀ fd ∈ s.fields, fd.name = f → fd.values.length = 0) →
      getDataFieldValue (some data) (some ⟨DataSourceType.field, v⟩) d =
        findFieldByName data.series f d) ∧
      (parseTextRef v = (some t, f) →
        (∀ s ∈ data.series, s.name = some t → ∀ fd ∈ s.fields, fd.name ≠ f) →
        getTextDataFieldValue (some data) (some ⟨DataSourceType.field, v⟩) dS = [dS]) := by
  constructor
  · intro hp h
    simp only [getDataFieldValue, getFieldFromDataSource]
    rw [hp]
    dsimp only
    rw [findFieldBySeriesAndName_eq_none data.series t f h]
  · intro hp h
    simp only [getTextDataFieldValue, getTextFieldFromDataSource]
    rw [hp]
    dsimp only
    exact getTextFieldLoop_default_of_name data.series t f dS h

theorem claim_C2_amended_witness :
    getDataFieldValue (some ⟨[⟨some "Zed", none, [⟨"PosX", [JSVal.num (JSNum.fin 3)]⟩]⟩]⟩)
        (some ⟨DataSourceType.field, "Nav.PosX"⟩) (JSNum.fin 9) =
        findFieldByName [⟨some "Zed", none, [⟨"PosX", [JSVal.num (JSNum.fin 3)]⟩]⟩] "PosX"
          (JSNum.fin 9) ∧
      getTextDataFieldValue (some ⟨[⟨some "Zed", none, [⟨"PosX", [JSVal.num (JSNum.fin 3)]⟩]⟩]⟩)
        (some ⟨DataSourceType.field, "Nav.PosX"⟩) "dd" = ["dd"] := by
  have h := claim_C2_amended ⟨[⟨some "Zed", none, [⟨"PosX", [JSVal.num (JSNum.fin 3)]⟩]⟩]⟩
    "Nav.PosX" "Nav" "PosX" (JSNum.fin 9) "dd"
  exact ⟨h.1 (by decide) (by decide), h.2 (by decide) (by decide)⟩

/-- C6 counterexample: a telemetry field that exists but holds zero values
makes text resolution return the empty array, so the returned length can
be 0. -/
theorem claim_C6_counterexample :
    getTextDataFieldValue (some ⟨[⟨some "S", none, [⟨"F", []⟩]⟩]⟩)
        (some ⟨DataSourceType.field, "F"⟩) "d" = ([] : List String) ∧
      ¬ 1 ≤ (getTextDataFieldValue (some ⟨[⟨some "S", none, [⟨"F", []⟩]⟩]⟩)
        (some ⟨DataSourceType.field, "F"⟩) "d").length :=
  ⟨by decide, by decide⟩

/-- C6 as amended: numeric resolution and the annotation string resolver
always return at least one value and yield exactly the default when no
series holds the referenced field with a nonzero value count; the text
resolver also yields exactly the default when no series holds a field of
the referenced name at all, but may return an empty array otherwise. -/
theorem claim_C6_amended (data? : Option PanelData) (field? : Option DataField) (d : JSNum)
    (dS : String) (data : PanelData) (v f : String) (t? : Option String) :
    1 ≤ (getDataFieldValue data? field? d).length ∧
      1 ≤ (getFieldValueAsString data? field? dS).length ∧
        (parseNumericRef v = (t?, f) →
          (∀ s ∈ data.series, ∀ fd ∈ s.fields, fd.name = f → fd.values.length = 0) →
          getDataFieldValue (some data) (some ⟨DataSourceType.field, v⟩) d = [d]) ∧
          (parseTextRef v = (t?, f) →
            (∀ s ∈ data.series, ∀ fd ∈ s.fields, fd.name ≠ f) →
            getTextDataFieldValue (some data) (some ⟨DataSourceType.field, v⟩) dS = [dS]) := by
  refine ⟨?_, ?_, ?_, ?_⟩
  · exact List.length_pos.mpr (getDataFieldValue_ne_nil data? field? d)
  · exact List.length_pos.mpr (getFieldValueAsString_ne_nil data? field? dS)
  · intro hp h
    simp only [getDataFieldValue, getFieldFromDataSource]
    rw [hp]
    cases t? with
    | some t =>
      dsimp only
      rw [findFieldBySeriesAndName_eq_none data.series t f (fun s hs _ => h s hs)]
      exact findFieldByName_eq_default data.series f d h
    | none =>
      dsimp only
      exact findFieldByName_eq_default data.series f d h
  · intro hp h
    simp only [getTextDataFieldValue, getTextFieldFromDataSource]
    rw [hp]
    dsimp only
    exact getTextFieldLoop_no_field data.series t? f dS h

theorem claim_C6_witness :
    getDataFieldValue (some (⟨[]⟩ : PanelData)) (some ⟨DataSourceType.field, "F"⟩)
        (JSNum.fin 7) = [JSNum.fin 7] ∧
      getTextDataFieldValue (some (⟨[]⟩ : PanelData)) (some ⟨DataSourceType.field, "F"⟩)
        "w" = ["w"] := by
  have h := claim_C6_amended none none (JSNum.fin 7) "w" ⟨[]⟩ "F" "F" none
  exact ⟨h.2.2.1 (by decide) (by decide), h.2.2.2 (by decide) (by decide)⟩

theorem JSNum.sub_fin_eq_add_neg (x : JSNum) (q : ℚ) :
    x.sub (JSNum.fin q) = x.add (JSNum.fin (-q)) := by
  cases x <;> simp [JSNum.sub, JSNum.add, sub_eq_add_neg]

theorem axisClickTarget_eq_claim (options : SimpleOptions) :
    axisClickTarget options = claimAxisTarget options := by
  simp only [axisClickTarget, claimAxisTarget]
  split
  · rfl
  · cases hf : (options.objects.getD []).find? (fun o => o.id =
        (match options.targetObjectId with
         | some s => if s = "" then "origin" else s
         | none => "origin")) with
    | none => rfl
    | some o =>
      cases o with
      | sphere s =>
        by_cases hc : s.posX.sourceType = DataSourceType.const <;>
          simp [Shape.isPointType, Shape.posX?, Shape.posY?, Shape.posZ?, optFieldValue, hc]
      | annot a =>
        by_cases hc : a.posX.sourceType = DataSourceType.const <;>
          simp [Shape.isPointType, Shape.posX?, Shape.posY?, Shape.posZ?, optFieldValue, hc]
      | model3d m =>
        by_cases hc : m.posX.sourceType = DataSourceType.const <;>
          simp [Shape.isPointType, Shape.posX?, Shape.posY?, Shape.posZ?, optFieldValue, hc]
      | polyline p =>
        simp [Shape.isPointType, Shape.posX?]

/-- C10: for every axis preset click the broadcast camera move command is
the target position displaced by exactly 100 units along the chosen axis
and equal to the target on the other two axes, where the target position
comes from the target object position fields exactly when that object
exists with a const sourced posX, and is the origin otherwise (also when
the target id is origin). -/
theorem claim_C10_axis_preset (options : SimpleOptions) (direction : AxisDir) (axis : Axis) :
    handleAxisClick options direction axis = claimAxisMsg options direction axis := by
  have ht := axisClickTarget_eq_claim options
  cases direction <;> cases axis <;>
    simp [handleAxisClick, claimAxisMsg, ht, JSNum.sub_fin_eq_add_neg]

/-- C5: reconciling the visible shape list from A, B to B, C destroys
exactly A, creates exactly C, keeps the entity of B in place (same stored
entity, creation stamp included), and leaves an entity map whose ids are
without duplicates. The reconciler is modelled from the design document
because ThreeScene.tsx is not among the source files. -/
theorem claim_C5_reconcile (A B C : Shape)
    (hvA : A.visible = true) (hvB : B.visible = true) (hvC : C.visible = true)
    (hAB : A.id ≠ B.id) (hAC : A.id ≠ C.id) (hBC : B.id ≠ C.id) :
    (reconcile [B, C] (reconcile [A, B] ⟨[], 0⟩).state).destroyed = [A.id] ∧
      (reconcile [B, C] (reconcile [A, B] ⟨[], 0⟩).state).created = [C.id] ∧
        (reconcile [B, C] (reconcile [A, B] ⟨[], 0⟩).state).state.entities =
            [(B.id, ⟨1, B⟩), (C.id, ⟨2, C⟩)] ∧
          lookupEnt (reconcile [A, B] ⟨[], 0⟩).state.entities B.id =
              lookupEnt (reconcile [B, C] (reconcile [A, B] ⟨[], 0⟩).state).state.entities
                B.id ∧
            ((reconcile [B, C] (reconcile [A, B] ⟨[], 0⟩).state).state.entities.map
                Prod.fst).Nodup := by
  have h1 : reconcile [A, B] ⟨[], 0⟩ =
      ⟨⟨[(A.id, ⟨0, A⟩), (B.id, ⟨1, B⟩)], 2⟩, [A.id, B.id], []⟩ := by
    simp [reconcile, idMem, lookupEnt, updateEnt, hvA, hvB, hAB]
  have h2 : reconcile [B, C] ⟨[(A.id, ⟨0, A⟩), (B.id, ⟨1, B⟩)], 2⟩ =
      ⟨⟨[(B.id, ⟨1, B⟩), (C.id, ⟨2, C⟩)], 3⟩, [C.id], [A.id]⟩ := by
    simp [reconcile, idMem, lookupEnt, updateEnt, hvB, hvC, hAB, hAC, hBC]
  rw [h1]
  rw [h2]
  refine ⟨rfl, rfl, rfl, ?_, ?_⟩
  · simp [lookupEnt, hAB]
  · simp [hBC]

theorem claim_C5_witness :
    (reconcile [sphereB, sphereC] (reconcile [sphereA, sphereB] ⟨[], 0⟩).state).destroyed =
        [sphereA.id] ∧
      (reconcile [sphereB, sphereC] (reconcile [sphereA, sphereB] ⟨[], 0⟩).state).created =
          [sphereC.id] ∧
        (reconcile [sphereB, sphereC]
              (reconcile [sphereA, sphereB] ⟨[], 0⟩).state).state.entities =
            [(sphereB.id, ⟨1, sphereB⟩), (sphereC.id, ⟨2, sphereC⟩)] ∧
          lookupEnt (reconcile [sphereA, sphereB] ⟨[], 0⟩).state.entities sphereB.id =
              lookupEnt (reconcile [sphereB, sphereC]
                (reconcile [sphereA, sphereB] ⟨[], 0⟩).state).state.entities sphereB.id ∧
            ((reconcile [sphereB, sphereC]
                (reconcile [sphereA, sphereB] ⟨[], 0⟩).state).state.entities.map
                Prod.fst).Nodup :=
  claim_C5_reconcile sphereA sphereB sphereC (by decide) (by decide) (by decide)
    (by decide) (by decide) (by decide)

theorem JSNum.isFinite_iff (v : JSNum) : v.isFinite = true ↔ ∃ q, v = JSNum.fin q := by
  cases v <;> simp [JSNum.isFinite]

theorem JSNum.jsMin_not_finite (a b : JSNum) (ha : a.isFinite = false)
    (hb : b.isFinite = false) : (JSNum.jsMin a b).isFinite = false := by
  cases a <;> cases b <;> simp_all [JSNum.jsMin, JSNum.isFinite]

theorem JSNum.jsMax_not_finite (a b : JSNum) (ha : a.isFinite = false)
    (hb : b.isFinite = false) : (JSNum.jsMax a b).isFinite = false := by
  cases a <;> cases b <;> simp_all [JSNum.jsMax, JSNum.isFinite]

theorem foldl_jsMin_all_not_finite (l : List JSNum) : ∀ acc : JSNum, acc.isFinite = false →
    (∀ v ∈ l, v.isFinite = false) → (l.foldl JSNum.jsMin acc).isFinite = false := by
  induction l with
  | nil => intro acc h _; simpa using h
  | cons v rest ih =>
    intro acc hacc h
    rw [List.foldl_cons]
    exact ih _ (JSNum.jsMin_not_finite _ _ hacc (h v (List.mem_cons_self _ _)))
      (fun w hw => h w (List.mem_cons_of_mem _ hw))

theorem foldl_jsMin_fin (l : List JSNum) : ∀ q : ℚ, (∀ v ∈ l, v.isFinite = true) →
    ∃ a : ℚ, l.foldl JSNum.jsMin (JSNum.fin q) = JSNum.fin a ∧ a ≤ q := by
  induction l with
  | nil => intro q _; exact ⟨q, rfl, le_refl q⟩
  | cons v rest ih =>
    intro q h
    obtain ⟨r, rfl⟩ := (JSNum.isFinite_iff v).mp (h v (List.mem_cons_self _ _))
    rw [List.foldl_cons]
    have hmin : JSNum.jsMin (JSNum.fin q) (JSNum.fin r) = JSNum.fin (min q r) := rfl
    rw [hmin]
    obtain ⟨a, ha, hle⟩ := ih (min q r) (fun w hw => h w (List.mem_cons_of_mem _ hw))
    exact ⟨a, ha, hle.trans (min_le_left q r)⟩

theorem foldl_jsMax_fin (l : List JSNum) : ∀ q : ℚ, (∀ v ∈ l, v.isFinite = true) →
    ∃ b : ℚ, l.foldl JSNum.jsMax (JSNum.fin q) = JSNum.fin b ∧ q ≤ b := by
  induction l with
  | nil => intro q _; exact ⟨q, rfl, le_refl q⟩
  | cons v rest ih =>
    intro q h
    obtain ⟨r, rfl⟩ := (JSNum.isFinite_iff v).mp (h v (List.mem_cons_self _ _))
    rw [List.foldl_cons]
    have hmax : JSNum.jsMax (JSNum.fin q) (JSNum.fin r) = JSNum.fin (max q r) := rfl
    rw [hmax]
    obtain ⟨b, hb, hle⟩ := ih (max q r) (fun w hw => h w (List.mem_cons_of_mem _ hw))
    exact ⟨b, hb, (le_max_left q r).trans hle⟩

theorem foldl_min_max_fin (l : List JSNum) (hl : l ≠ []) (h : ∀ v ∈ l, v.isFinite = true) :
    ∃ a b : ℚ, l.foldl JSNum.jsMin JSNum.inf = JSNum.fin a ∧
      l.foldl JSNum.jsMax JSNum.ninf = JSNum.fin b ∧ a ≤ b := by
  cases l with
  | nil => exact absurd rfl hl
  | cons v rest =>
    obtain ⟨q, rfl⟩ := (JSNum.isFinite_iff v).mp (h v (List.mem_cons_self _ _))
    rw [List.foldl_cons, List.foldl_cons]
    have h1 : JSNum.jsMin JSNum.inf (JSNum.fin q) = JSNum.fin q := rfl
    have h2 : JSNum.jsMax JSNum.ninf (JSNum.fin q) = JSNum.fin q := rfl
    rw [h1, h2]
    have hrest := fun w hw => h w (List.mem_cons_of_mem _ hw)
    obtain ⟨a, ha, hqa⟩ := foldl_jsMin_fin rest q hrest
    obtain ⟨b, hb, hqb⟩ := foldl_jsMax_fin rest q hrest
    exact ⟨a, b, ha, hb, hqa.trans hqb⟩

theorem foldl_jsMin_nan (l : List JSNum) : l.foldl JSNum.jsMin JSNum.nan = JSNum.nan := by
  induction l with
  | nil => rfl
  | cons v rest ih =>
    rw [List.foldl_cons]
    have h : JSNum.jsMin JSNum.nan v = JSNum.nan := by cases v <;> rfl
    rw [h, ih]

theorem foldl_jsMax_nan (l : List JSNum) : l.foldl JSNum.jsMax JSNum.nan = JSNum.nan := by
  induction l with
  | nil => rfl
  | cons v rest ih =>
    rw [List.foldl_cons]
    have h : JSNum.jsMax JSNum.nan v = JSNum.nan := by cases v <;> rfl
    rw [h, ih]

theorem foldl_jsMin_ninf_not_finite (l : List JSNum) :
    (l.foldl JSNum.jsMin JSNum.ninf).isFinite = false := by
  induction l with
  | nil => rfl
  | cons v rest ih =>
    rw [List.foldl_cons]
    cases v with
    | nan =>
      have h : JSNum.jsMin JSNum.ninf JSNum.nan = JSNum.nan := rfl
      rw [h, foldl_jsMin_nan]
      rfl
    | fin q => exact ih
    | inf => exact ih
    | ninf => exact ih

theorem foldl_jsMax_inf_not_finite (l : List JSNum) :
    (l.foldl JSNum.jsMax JSNum.inf).isFinite = false := by
  induction l with
  | nil => rfl
  | cons v rest ih =>
    rw [List.foldl_cons]
    cases v with
    | nan =>
      have h : JSNum.jsMax JSNum.inf JSNum.nan = JSNum.nan := rfl
      rw [h, foldl_jsMax_nan]
      rfl
    | fin q => exact ih
    | inf => exact ih
    | ninf => exact ih

theorem foldl_jsMin_elems (l : List JSNum) : ∀ acc : JSNum,
    (l.foldl JSNum.jsMin acc).isFinite = true → ∀ v ∈ l, v ≠ JSNum.ninf ∧ v ≠ JSNum.nan := by
  induction l with
  | nil => simp
  | cons v rest ih =>
    intro acc h w hw
    rw [List.foldl_cons] at h
    rcases List.mem_cons.mp hw with rfl | hw'
    · constructor
      · rintro rfl
        have hcase : JSNum.jsMin acc JSNum.ninf = JSNum.ninf ∨
            JSNum.jsMin acc JSNum.ninf = JSNum.nan := by
          cases acc <;> simp [JSNum.jsMin]
        rcases hcase with hc | hc <;> rw [hc] at h
        · rw [foldl_jsMin_ninf_not_finite] at h
          cases h
        · rw [foldl_jsMin_nan] at h
          cases h
      · rintro rfl
        have hc : JSNum.jsMin acc JSNum.nan = JSNum.nan := by cases acc <;> rfl
        rw [hc, foldl_jsMin_nan] at h
        cases h
    · exact ih _ h w hw'

theorem foldl_jsMax_elems (l : List JSNum) : ∀ acc : JSNum,
    (l.foldl JSNum.jsMax acc).isFinite = true → ∀ v ∈ l, v ≠ JSNum.inf ∧ v ≠ JSNum.nan := by
  induction l with
  | nil => simp
  | cons v rest ih =>
    intro acc h w hw
    rw [List.foldl_cons] at h
    rcases List.mem_cons.mp hw with rfl | hw'
    · constructor
      · rintro rfl
        have hcase : JSNum.jsMax acc JSNum.inf = JSNum.inf ∨
            JSNum.jsMax acc JSNum.inf = JSNum.nan := by
          cases acc <;> simp [JSNum.jsMax]
        rcases hcase with hc | hc <;> rw [hc] at h
        · rw [foldl_jsMax_inf_not_finite] at h
          cases h
        · rw [foldl_jsMax_nan] at h
          cases h
      · rintro rfl
        have hc : JSNum.jsMax acc JSNum.nan = JSNum.nan := by cases acc <;> rfl
        rw [hc, foldl_jsMax_nan] at h
        cases h
    · exact ih _ h w hw'

theorem padAxis_not_finite (mn mx : JSNum) (h : ¬(mn.isFinite = true ∧ mx.isFinite = true)) :
    padAxis mn mx = (JSNum.fin (-50), JSNum.fin 50) := by
  simp only [padAxis]
  rw [if_neg h]

theorem padAxis_fin (a b : ℚ) :
    padAxis (JSNum.fin a) (JSNum.fin b) =
      (JSNum.fin (a - padOf a b), JSNum.fin (b + padOf a b)) := by
  by_cases h : b - a = 0 <;>
    simp [padAxis, JSNum.isFinite, JSNum.sub, JSNum.jsOr, JSNum.truthy, h, JSNum.mul,
      JSNum.add, padOf]

theorem padOf_pos (a b : ℚ) (hab : a ≤ b) : 0 < padOf a b := by
  unfold padOf
  rcases eq_or_lt_of_le hab with heq | hlt
  · rw [if_pos (by rw [← heq]; ring)]
    norm_num
  · rw [if_neg (by intro h0; nlinarith)]
    nlinarith

theorem axisOk_padAxis (l : List JSNum) :
    axisOk l
      (padAxis (l.foldl JSNum.jsMin JSNum.inf) (l.foldl JSNum.jsMax JSNum.ninf)).1
      (padAxis (l.foldl JSNum.jsMin JSNum.inf) (l.foldl JSNum.jsMax JSNum.ninf)).2 := by
  refine ⟨?_, ?_, ?_⟩
  · by_cases hfin : (l.foldl JSNum.jsMin JSNum.inf).isFinite = true ∧
        (l.foldl JSNum.jsMax JSNum.ninf).isFinite = true
    · have hall : ∀ v ∈ l, v.isFinite = true := by
        intro v hv
        have h1 := foldl_jsMin_elems l JSNum.inf hfin.1 v hv
        have h2 := foldl_jsMax_elems l JSNum.ninf hfin.2 v hv
        cases v with
        | fin q => rfl
        | inf => exact absurd rfl h2.1
        | ninf => exact absurd rfl h1.1
        | nan => exact absurd rfl h1.2
      have hne : l ≠ [] := by
        rintro rfl
        exact absurd hfin.1 (by simp [JSNum.isFinite])
      obtain ⟨a, b, ha, hb, hab⟩ := foldl_min_max_fin l hne hall
      rw [ha, hb, padAxis_fin]
      have hp := padOf_pos a b hab
      show a - padOf a b < b + padOf a b
      linarith
    · rw [padAxis_not_finite _ _ hfin]
      show (-50 : ℚ) < 50
      norm_num
  · intro hbad
    have h1 : (l.foldl JSNum.jsMin JSNum.inf).isFinite = false :=
      foldl_jsMin_all_not_finite l JSNum.inf rfl hbad
    rw [padAxis_not_finite _ _ (by simp [h1])]
    exact ⟨rfl, rfl⟩
  · intro hne hall
    obtain ⟨a, b, ha, hb, hab⟩ := foldl_min_max_fin l hne hall
    refine ⟨a, b, ha, hb, hab, ?_, ?_⟩ <;> rw [ha, hb, padAxis_fin]

theorem boundsFold_eq (vs : List JSNum) : ∀ mn mx : JSNum,
    boundsFold mn mx vs = (vs.foldl JSNum.jsMin mn, vs.foldl JSNum.jsMax mx) := by
  induction vs with
  | nil => intro mn mx; rfl
  | cons v rest ih =>
    intro mn mx
    simp only [boundsFold, List.foldl_cons] at ih ⊢
    exact ih (JSNum.jsMin mn v) (JSNum.jsMax mx v)

theorem boundsStep_fields (data? : Option PanelData) (st : AutoScaleLimits) (s : Shape) :
    boundsStep data? st s =
      ⟨(shapeContribsX data? s).foldl JSNum.jsMin st.minX,
       (shapeContribsX data? s).foldl JSNum.jsMax st.maxX,
       (shapeContribsY data? s).foldl JSNum.jsMin st.minY,
       (shapeContribsY data? s).foldl JSNum.jsMax st.maxY,
       (shapeContribsZ data? s).foldl JSNum.jsMin st.minZ,
       (shapeContribsZ data? s).foldl JSNum.jsMax st.maxZ⟩ := by
  by_cases hv : s.visible = true
  · cases s with
    | sphere sp =>
      simp_all [boundsStep, shapeContribsX, shapeContribsY, shapeContribsZ, boundsPoint,
        Shape.visible]
    | annot a =>
      simp_all [boundsStep, shapeContribsX, shapeContribsY, shapeContribsZ, boundsPoint,
        Shape.visible]
    | model3d m =>
      simp_all [boundsStep, shapeContribsX, shapeContribsY, shapeContribsZ, boundsPoint,
        Shape.visible]
    | polyline p =>
      simp_all [boundsStep, shapeContribsX, shapeContribsY, shapeContribsZ, boundsFold_eq,
        Shape.visible]
  · have hv' : s.visible = false := by
      cases h : s.visible
      · rfl
      · exact absurd h hv
    simp [boundsStep, shapeContribsX, shapeContribsY, shapeContribsZ, hv']

theorem rawBounds_foldl (data? : Option PanelData) (objects : List Shape) :
    ∀ st : AutoScaleLimits, objects.foldl (boundsStep data?) st =
      ⟨(contribsX data? objects).foldl JSNum.jsMin st.minX,
       (contribsX data? objects).foldl JSNum.jsMax st.maxX,
       (contribsY data? objects).foldl JSNum.jsMin st.minY,
       (contribsY data? objects).foldl JSNum.jsMax st.maxY,
       (contribsZ data? objects).foldl JSNum.jsMin st.minZ,
       (contribsZ data? objects).foldl JSNum.jsMax st.maxZ⟩ := by
  induction objects with
  | nil => intro st; simp [contribsX, contribsY, contribsZ]
  | cons s rest ih =>
    intro st
    rw [List.foldl_cons, ih, boundsStep_fields]
    simp [contribsX, contribsY, contribsZ, List.foldl_append]

theorem rawBounds_fields (data? : Option PanelData) (objects : List Shape) :
    rawBounds data? objects =
      ⟨(contribsX data? objects).foldl JSNum.jsMin JSNum.inf,
       (contribsX data? objects).foldl JSNum.jsMax JSNum.ninf,
       (contribsY data? objects).foldl JSNum.jsMin JSNum.inf,
       (contribsY data? objects).foldl JSNum.jsMax JSNum.ninf,
       (contribsZ data? objects).foldl JSNum.jsMin JSNum.inf,
       (contribsZ data? objects).foldl JSNum.jsMax JSNum.ninf⟩ :=
  rawBounds_foldl data? objects _

theorem boundsStep_invisible (data? : Option PanelData) (st : AutoScaleLimits) (s : Shape)
    (h : s.visible = false) : boundsStep data? st s = st := by
  simp [boundsStep, h]

theorem foldl_boundsStep_filter (data? : Option PanelData) (objects : List Shape) :
    ∀ st : AutoScaleLimits, objects.foldl (boundsStep data?) st =
      (objects.filter (fun s => s.visible)).foldl (boundsStep data?) st := by
  induction objects with
  | nil => intro st; rfl
  | cons s rest ih =>
    intro st
    by_cases hv : s.visible = true
    · rw [List.foldl_cons, List.filter_cons_of_pos (by simpa using hv), List.foldl_cons,
        ih]
    · have hv' : s.visible = false := by
        cases h : s.visible
        · rfl
        · exact absurd h hv
      rw [List.foldl_cons, boundsStep_invisible data? st s hv',
        List.filter_cons_of_neg (by simpa using hv'), ih]

/-- C9: calculateAutoScaleLimits depends only on the visible shapes, and
on each axis the returned bounds are finite with min strictly below max;
an axis with no finite contribution defaults to minus 50 and 50, and an
axis all of whose contributions are finite returns those contributions
min and max widened on both sides by a tenth of the range (10 standing in
for a zero range). -/
theorem claim_C9_auto_scale_limits (data? : Option PanelData) (objects : List Shape) :
    calculateAutoScaleLimits data? objects =
        calculateAutoScaleLimits data? (objects.filter (fun s => s.visible)) ∧
      axisOk (contribsX data? objects) (calculateAutoScaleLimits data? objects).minX
          (calculateAutoScaleLimits data? objects).maxX ∧
        axisOk (contribsY data? objects) (calculateAutoScaleLimits data? objects).minY
            (calculateAutoScaleLimits data? objects).maxY ∧
          axisOk (contribsZ data? objects) (calculateAutoScaleLimits data? objects).minZ
            (calculateAutoScaleLimits data? objects).maxZ := by
  have hfields := rawBounds_fields data? objects
  refine ⟨?_, ?_, ?_, ?_⟩
  · unfold calculateAutoScaleLimits rawBounds
    rw [foldl_boundsStep_filter]
  · have e1 : (calculateAutoScaleLimits data? objects).minX =
        (padAxis ((contribsX data? objects).foldl JSNum.jsMin JSNum.inf)
          ((contribsX data? objects).foldl JSNum.jsMax JSNum.ninf)).1 := by
      simp [calculateAutoScaleLimits, hfields]
    have e2 : (calculateAutoScaleLimits data? objects).maxX =
        (padAxis ((contribsX data? objects).foldl JSNum.jsMin JSNum.inf)
          ((contribsX data? objects).foldl JSNum.jsMax JSNum.ninf)).2 := by
      simp [calculateAutoScaleLimits, hfields]
    rw [e1, e2]
    exact axisOk_padAxis _
  · have e1 : (calculateAutoScaleLimits data? objects).minY =
        (padAxis ((contribsY data? objects).foldl JSNum.jsMin JSNum.inf)
          ((contribsY data? objects).foldl JSNum.jsMax JSNum.ninf)).1 := by
      simp [calculateAutoScaleLimits, hfields]
    have e2 : (calculateAutoScaleLimits data? objects).maxY =
        (padAxis ((contribsY data? objects).foldl JSNum.jsMin JSNum.inf)
          ((contribsY data? objects).foldl JSNum.jsMax JSNum.ninf)).2 := by
      simp [calculateAutoScaleLimits, hfields]
    rw [e1, e2]
    exact axisOk_padAxis _
  · have e1 : (calculateAutoScaleLimits data? objects).minZ =
        (padAxis ((contribsZ data? objects).foldl JSNum.jsMin JSNum.inf)
          ((contribsZ data? objects).foldl JSNum.jsMax JSNum.ninf)).1 := by
      simp [calculateAutoScaleLimits, hfields]
    have e2 : (calculateAutoScaleLimits data? objects).maxZ =
        (padAxis ((contribsZ data? objects).foldl JSNum.jsMin JSNum.inf)
          ((contribsZ data? objects).foldl JSNum.jsMax JSNum.ninf)).2 := by
      simp [calculateAutoScaleLimits, hfields]
    rw [e1, e2]
    exact axisOk_padAxis _

theorem claim_C9_witness :
    axisOk (contribsX none [sphereB]) (calculateAutoScaleLimits none [sphereB]).minX
        (calculateAutoScaleLimits none [sphereB]).maxX ∧
      calculateAutoScaleLimits none [sphereB] =
        ⟨JSNum.fin 0, JSNum.fin 2, JSNum.fin 0, JSNum.fin 2, JSNum.fin 0, JSNum.fin 2⟩ :=
  ⟨(claim_C9_auto_scale_limits none [sphereB]).2.1, by decide⟩

/-- C4: with a positive resolved original size, scaling enabled, a target
angular size strictly between 0 and pi and a well formed clamp range, the
view based scale is monotonically non-decreasing in the camera distance
and always lies in the clamp interval. -/
theorem claim_C4_monotone (object : Object3D) (camera1 camera2 : Camera) (config : VAConfig)
    (hsize : 0 < (getObjectSize object).1)
    (hen : config.enabled = true)
    (hth0 : 0 < config.targetAngularSize) (hthpi : config.targetAngularSize < Real.pi)
    (hd1 : 0 < distanceTo camera1.position object.position)
    (hd12 : distanceTo camera1.position object.position ≤
      distanceTo camera2.position object.position)
    (hminmax : config.minSize ≤ config.maxSize) :
    calculateViewBasedScale object camera1 config ≤
        calculateViewBasedScale object camera2 config ∧
      calculateViewBasedScale object camera1 config ∈
          Set.Icc config.minSize config.maxSize ∧
        calculateViewBasedScale object camera2 config ∈
          Set.Icc config.minSize config.maxSize := by
  have htan : 0 < Real.tan (config.targetAngularSize / 2) :=
    Real.tan_pos_of_pos_of_lt_pi_div_two (by linarith) (by linarith)
  have hd2 : 0 < distanceTo camera2.position object.position := lt_of_lt_of_le hd1 hd12
  have hne : ¬(config.enabled = false) := by simp [hen]
  simp only [calculateViewBasedScale, if_neg hne, if_neg hd1.ne', if_neg hd2.ne']
  refine ⟨?_, ?_, ?_⟩
  · have hmono : 2 * distanceTo camera1.position object.position *
        Real.tan (config.targetAngularSize / 2) / (getObjectSize object).1 ≤
        2 * distanceTo camera2.position object.position *
          Real.tan (config.targetAngularSize / 2) / (getObjectSize object).1 := by
      gcongr
    exact max_le_max (le_refl _) (min_le_min (le_refl _) hmono)
  · exact Set.mem_Icc.mpr ⟨le_max_left _ _, max_le hminmax (min_le_left _ _)⟩
  · exact Set.mem_Icc.mpr ⟨le_max_left _ _, max_le hminmax (min_le_left _ _)⟩

theorem claim_C4_witness :
    0 < (getObjectSize objW).1 ∧
      0 < distanceTo camW1.position objW.position ∧
        distanceTo camW1.position objW.position ≤
            distanceTo camW2.position objW.position ∧
          calculateViewBasedScale objW camW1 cfgW ≤
            calculateViewBasedScale objW camW2 cfgW := by
  have hsize : 0 < (getObjectSize objW).1 := by
    simp only [getObjectSize, objW]
    norm_num
  have hd1eq : distanceTo camW1.position objW.position = 1 := by
    simp only [distanceTo, camW1, objW]
    norm_num [Real.sqrt_one]
  have hd2eq : distanceTo camW2.position objW.position = 2 := by
    simp only [distanceTo, camW2, objW]
    norm_num
    rw [show (4 : ℝ) = 2 ^ 2 by norm_num]
    exact Real.sqrt_sq (by norm_num)
  have hpi : cfgW.targetAngularSize < Real.pi := by
    show (1 : ℝ) < Real.pi
    have h3 := Real.pi_gt_three
    linarith
  have h := claim_C4_monotone objW camW1 camW2 cfgW hsize rfl (by norm_num [cfgW]) hpi
    (by rw [hd1eq]; norm_num) (by rw [hd1eq, hd2eq]; norm_num) (by norm_num [cfgW])
  exact ⟨hsize, by rw [hd1eq]; norm_num, by rw [hd1eq, hd2eq]; norm_num, h.1⟩

/-- C1 counterexample: at an aspect ratio of exactly zero the code treats
the ratio as absent (or-default) and multiplies by 1 while the claimed
formula (nullish coalescing) multiplies by the clamped 0, and at a cached
original size of exactly zero the code derives the size from the bounding
box while the claimed formula divides by the present zero; both concrete
objects make the claimed formula differ from the code. -/
theorem claim_C1_counterexample :
    viewAngleScale objA1 camW1 cfgC1 ≠ claimScaleC1 objA1 camW1 cfgC1 ∧
      viewAngleScale objA2 camW1 cfgC1 ≠ claimScaleC1 objA2 camW1 cfgC1 := by
  have htan : Real.tan (cfgC1.targetAngularSize / 2) = 1 := by
    show Real.tan (Real.pi / 2 / 2) = 1
    rw [show Real.pi / 2 / 2 = Real.pi / 4 by ring]
    exact Real.tan_pi_div_four
  have hen : cfgC1.enabled = true := rfl
  have hmin : cfgC1.minSize = 1 / 10 := rfl
  have hmax : cfgC1.maxSize = 10 := rfl
  have hd1 : distanceTo camW1.position objA1.position = 1 := by
    simp only [distanceTo, camW1, objA1]
    norm_num [Real.sqrt_one]
  have hd2 : distanceTo camW1.position objA2.position = 1 := by
    simp only [distanceTo, camW1, objA2]
    norm_num [Real.sqrt_one]
  have hcache1 : objA1.userData.originalSize = some 2 := rfl
  have haspect1 : objA1.userData.aspectRatio = some 0 := rfl
  have hcache2 : objA2.userData.originalSize = some 0 := rfl
  have haspect2 : objA2.userData.aspectRatio = none := rfl
  have hbbox2 : bboxMaxDimension objA2 = 2 := by
    simp [bboxMaxDimension, objA2]
  have hsize1 : (getObjectSize objA1).1 = 2 := by
    simp only [getObjectSize, hcache1]
    norm_num
  have hsize2 : (getObjectSize objA2).1 = 2 := by
    simp only [getObjectSize, hcache2]
    norm_num [hbbox2]
  constructor
  · have hL : viewAngleScale objA1 camW1 cfgC1 = 1 := by
      simp only [viewAngleScale, applyShapeAdjustment, calculateViewBasedScale, hd1, htan,
        hen, hmin, hmax, hsize1, haspect1]
      norm_num [min_def, max_def]
    have hR : claimScaleC1 objA1 camW1 cfgC1 = 1 / 2 := by
      simp only [claimScaleC1, claimOriginalSize, hd1, htan, hen, hmin, hmax, hcache1,
        haspect1]
      norm_num [min_def, max_def]
    rw [hL, hR]
    norm_num
  · have hL : viewAngleScale objA2 camW1 cfgC1 = 1 := by
      simp only [viewAngleScale, applyShapeAdjustment, calculateViewBasedScale, hd2, htan,
        hen, hmin, hmax, hsize2, haspect2]
      norm_num [min_def, max_def]
    have hR : claimScaleC1 objA2 camW1 cfgC1 = 1 / 10 := by
      simp only [claimScaleC1, claimOriginalSize, hd2, htan, hen, hmin, hmax, hcache2,
        haspect2]
      norm_num [min_def, max_def]
    rw [hL, hR]
    norm_num

/-- C1 as amended: the composite per-frame scale equals the amended
formula (1 when disabled or at distance zero, else the clamped view based
scale times the clamped aspect ratio, where a cached size of zero falls
back to the bounding box and an aspect ratio of zero falls back to 1),
and after resolving the size the cache always holds the size used. -/
theorem claim_C1_scale_formula (object : Object3D) (camera : Camera) (config : VAConfig) :
    viewAngleScale object camera config = amendedScaleC1 object camera config ∧
      (getObjectSize object).2.userData.originalSize = some ((getObjectSize object).1) := by
  constructor
  · by_cases hb : config.enabled = false ∨ distanceTo camera.position object.position = 0
    · simp only [viewAngleScale, amendedScaleC1, if_pos hb]
    · have hen : ¬(config.enabled = false) := fun h => hb (Or.inl h)
      have hd : ¬(distanceTo camera.position object.position = 0) := fun h => hb (Or.inr h)
      have hsize : (getObjectSize object).1 = amendedOriginalSize object := by
        unfold getObjectSize amendedOriginalSize
        cases ho : object.userData.originalSize with
        | none => rfl
        | some s => by_cases hs : s ≠ 0 <;> simp [hs]
      simp only [viewAngleScale, amendedScaleC1, if_neg hb, applyShapeAdjustment,
        calculateViewBasedScale, if_neg hen, if_neg hd, hsize]
  · simp only [getObjectSize]
    cases ho : object.userData.originalSize with
    | none => simp [cacheSize]
    | some s =>
      by_cases hs : s ≠ 0
      · simp [hs, ho]
      · simp [hs, cacheSize]

end Rdv

